import Mathlib

/-!
Shallow embedding of the CloudMount daemon core (a FUSE adapter over the
Backblaze B2 REST API) and proofs about it.

Rust `HashMap`s are embedded as association lists with replace-on-insert
semantics; machine integers (`u64`) are embedded as `Nat` (none of the
verified operations can overflow 64 bits on the inputs considered);
`SystemTime` / `Instant` values are abstract tick counts (`Nat`); fallible
Rust functions returning `Result` become `Except`.
-/

namespace CloudMount

/-! ## Association-list maps (embedding of `std::collections::HashMap`) -/

/-- Lookup in an association list, the embedding of `HashMap::get`. -/
def alookup {α β : Type} [DecidableEq α] (l : List (α × β)) (k : α) : Option β :=
  match l with
  | [] => none
  | (k', v) :: rest => if k' = k then some v else alookup rest k

/-- Remove a key, the embedding of `HashMap::remove`'s effect on the map. -/
def aremove {α β : Type} [DecidableEq α] (l : List (α × β)) (k : α) : List (α × β) :=
  l.filter (fun kv => kv.1 ≠ k)

/-- Insert with replacement, the embedding of `HashMap::insert`. -/
def ainsert {α β : Type} [DecidableEq α] (l : List (α × β)) (k : α) (v : β) :
    List (α × β) :=
  (k, v) :: aremove l k

theorem alookup_ainsert {α β : Type} [DecidableEq α] (l : List (α × β)) (k : α) (v : β) :
    alookup (ainsert l k v) k = some v := by
  simp [ainsert, alookup]

theorem aremove_of_not_mem {α β : Type} [DecidableEq α] (l : List (α × β)) (k : α)
    (h : alookup l k = none) : aremove l k = l := by
  induction l with
  | nil => rfl
  | cons kv rest ih =>
    unfold alookup at h
    by_cases hk : kv.1 = k
    · rw [if_pos hk] at h
      exact absurd h (by simp)
    · rw [if_neg hk] at h
      simp [aremove, hk] at ih ⊢
      exact ih h

/-! ## Inode table (`src/fs/inode.rs`) -/

/-- Root inode number (`ROOT_INO`), always 1 per FUSE convention. -/
def ROOT_INO : Nat := 1

/-- The inode table: two maps kept in lockstep plus the next free number.
Embeds `struct InodeTable`. -/
structure InodeTable where
  path_to_ino : List (String × Nat)
  ino_to_path : List (Nat × String)
  next_ino : Nat
  deriving Repr, DecidableEq

/-- Embeds `InodeTable::normalize_path`: `path.trim_matches('/')`, stripping
leading and trailing slashes. -/
def normalize_path (p : String) : String :=
  String.mk (((p.data.dropWhile (· = '/')).reverse.dropWhile (· = '/')).reverse)

/-- Embeds `InodeTable::new`: root inode 1 bound to the empty path. -/
def InodeTable.new : InodeTable :=
  { path_to_ino := [("", ROOT_INO)]
    ino_to_path := [(ROOT_INO, "")]
    next_ino := ROOT_INO + 1 }

/-- Embeds `InodeTable::lookup_or_create`: return the existing inode for the
normalized path, or allocate `next_ino` and record both directions. -/
def InodeTable.lookup_or_create (t : InodeTable) (path : String) : Nat × InodeTable :=
  let normalized := normalize_path path
  match alookup t.path_to_ino normalized with
  | some ino => (ino, t)
  | none =>
    let ino := t.next_ino
    (ino, { path_to_ino := ainsert t.path_to_ino normalized ino
            ino_to_path := ainsert t.ino_to_path ino normalized
            next_ino := t.next_ino + 1 })

/-- Embeds `InodeTable::get_path`. -/
def InodeTable.get_path (t : InodeTable) (ino : Nat) : Option String :=
  alookup t.ino_to_path ino

/-- Embeds `InodeTable::get_ino`. -/
def InodeTable.get_ino (t : InodeTable) (path : String) : Option Nat :=
  alookup t.path_to_ino (normalize_path path)

/-- Everything before the last `/` of a path, if the path has one; this is
the embedding of `path.rfind('/')` followed by `&path[..last_slash]`. -/
def before_last_slash (path : String) : Option String :=
  if path.data.contains '/' then
    some (String.mk (((path.data.reverse.dropWhile (· ≠ '/')).drop 1).reverse))
  else none

/-- Embeds `InodeTable::get_parent_ino`: root's parent is root; otherwise the
inode bound to the path prefix before the last slash, defaulting to root. -/
def InodeTable.get_parent_ino (t : InodeTable) (ino : Nat) : Nat :=
  if ino = ROOT_INO then ROOT_INO
  else
    match t.get_path ino with
    | none => ROOT_INO
    | some path =>
      if path = "" then ROOT_INO
      else
        match before_last_slash path with
        | some parent_path =>
          match alookup t.path_to_ino parent_path with
          | some parent_ino => parent_ino
          | none => ROOT_INO
        | none => ROOT_INO

/-- Embeds `InodeTable::remove` (by inode): drop both directions, returning
the removed path. -/
def InodeTable.remove (t : InodeTable) (ino : Nat) : Option String × InodeTable :=
  match alookup t.ino_to_path ino with
  | some path =>
    (some path, { t with ino_to_path := aremove t.ino_to_path ino
                         path_to_ino := aremove t.path_to_ino path })
  | none => (none, t)

/-- Embeds `InodeTable::remove_by_path`: drop both directions, returning the
removed inode. -/
def InodeTable.remove_by_path (t : InodeTable) (path : String) : Option Nat × InodeTable :=
  let normalized := normalize_path path
  match alookup t.path_to_ino normalized with
  | some ino =>
    (some ino, { t with path_to_ino := aremove t.path_to_ino normalized
                        ino_to_path := aremove t.ino_to_path ino })
  | none => (none, t)

/-- Embeds `InodeTable::rename`: remove the inode's old forward entry, then
insert the new mapping in both directions.  Note the source does not touch
a prior inode already mapped to `new_path` in `ino_to_path`. -/
def InodeTable.rename (t : InodeTable) (ino : Nat) (new_path : String) : InodeTable :=
  let normalized := normalize_path new_path
  let t1 :=
    match alookup t.ino_to_path ino with
    | some old_path => { t with path_to_ino := aremove t.path_to_ino old_path }
    | none => t
  { t1 with path_to_ino := ainsert t1.path_to_ino normalized ino
            ino_to_path := ainsert t1.ino_to_path ino normalized }

/-! ## REST client retry policy (`src/b2/client.rs`) -/

/-- Maximum number of retries for retryable errors (`MAX_RETRIES`). -/
def MAX_RETRIES : Nat := 3

/-- Health constant `HEALTH_HEALTHY`. -/
def HEALTH_HEALTHY : Nat := 0

/-- Health constant `HEALTH_DEGRADED`. -/
def HEALTH_DEGRADED : Nat := 1

/-- Health constant `HEALTH_UNHEALTHY`. -/
def HEALTH_UNHEALTHY : Nat := 2

/-- Character-list test for "pat is an initial segment of s". -/
def leadsWith : List Char → List Char → Bool
  | [], _ => true
  | _ :: _, [] => false
  | p :: ps, c :: cs => p = c && leadsWith ps cs

/-- Character-list test for "pat occurs somewhere in s". -/
def occursIn (pat : List Char) : List Char → Bool
  | [] => leadsWith pat []
  | c :: cs => leadsWith pat (c :: cs) || occursIn pat cs

/-- Substring test, the embedding of Rust `str::contains`. -/
def containsSubstr (s pat : String) : Bool :=
  occursIn pat.data s.data

/-- Embedding of Rust `str::starts_with` with a string pattern. -/
def strStartsWith (s pat : String) : Bool :=
  leadsWith pat.data s.data

/-- Embedding of Rust `str::ends_with` with a string pattern. -/
def strEndsWith (s pat : String) : Bool :=
  leadsWith pat.data.reverse s.data.reverse

/-- The error classification computed inside `B2Client::with_retry` from the
display string of the error. -/
structure ErrorClass where
  is_auth_expired : Bool
  is_rate_limited : Bool
  is_server_error : Bool
  is_network : Bool
  deriving Repr, DecidableEq

/-- Embeds the classification block of `with_retry` (substring matches on the
error's display string).  Note the server-error test checks only 500, 503
and 408. -/
def classify (e : String) : ErrorClass :=
  { is_auth_expired := containsSubstr e "401"
    is_rate_limited := containsSubstr e "429"
    is_server_error :=
      containsSubstr e "500" || containsSubstr e "503" || containsSubstr e "408"
    is_network :=
      containsSubstr e "connect" || containsSubstr e "timeout" ||
        containsSubstr e "network" }

/-- Embeds `is_retryable`. -/
def ErrorClass.is_retryable (c : ErrorClass) : Bool :=
  c.is_auth_expired || c.is_rate_limited || c.is_server_error || c.is_network

/-- The backoff schedule `backoff_ms = [500, 1000, 2000]`. -/
def backoff_ms : List Nat := [500, 1000, 2000]

/-- Observable outcome of one `with_retry` run: the returned result, how many
times the wrapped closure was invoked, the sleeps performed between attempts
(in order, in milliseconds), the final value of the health byte, whether the
error ring was appended to, and whether a token refresh was attempted. -/
structure RetryResult (α : Type) where
  result : Except String α
  attempts : Nat
  sleeps : List Nat
  health : Nat
  error_logged : Bool
  auth_refreshed : Bool
  deriving Repr

/-- Embeds the `for attempt in 0..=MAX_RETRIES` loop body of
`B2Client::with_retry`.  `f i` is the outcome of the `i`-th invocation of the
wrapped closure, `h` the current health byte; the fuel argument makes the
recursion structural and its exhaustion corresponds to the `unreachable!()`
after the loop. -/
def withRetryAux {α : Type} (f : Nat → Except String α) (attempt : Nat) (h : Nat) :
    Nat → RetryResult α
  | 0 =>
    { result := Except.error "unreachable", attempts := attempt, sleeps := []
      health := h, error_logged := false, auth_refreshed := false }
  | fuel + 1 =>
    match f attempt with
    | Except.ok v =>
      { result := Except.ok v, attempts := attempt + 1, sleeps := []
        health := HEALTH_HEALTHY, error_logged := false, auth_refreshed := false }
    | Except.error e =>
      let c := classify e
      if !c.is_retryable || attempt = MAX_RETRIES then
        { result := Except.error e
          attempts := attempt + 1
          sleeps := []
          health :=
            if c.is_network then HEALTH_UNHEALTHY
            else if c.is_rate_limited then HEALTH_DEGRADED
            else h
          error_logged := true
          auth_refreshed := false }
      else
        let refreshed := c.is_auth_expired && attempt = 0
        let delay := ((backoff_ms.get? attempt).getD 2000)
        let r := withRetryAux f (attempt + 1) h fuel
        { r with sleeps := delay :: r.sleeps
                 auth_refreshed := refreshed || r.auth_refreshed }

/-- Embeds `B2Client::with_retry`, parameterized by the outcome `f i` of each
attempt and the initial health byte. -/
def with_retry {α : Type} (f : Nat → Except String α) (h : Nat) : RetryResult α :=
  withRetryAux f 0 h (MAX_RETRIES + 1)

/-! ## Local file cache (`src/cache/file_cache.rs`)

The on-disk state under the cache root is embedded as an association list
from local path to file content (a byte list); `CacheEntry.local_path` is
recomputed from the remote path exactly as the source does. -/

/-- Embeds `CacheEntry` (the `local_path` field is kept implicitly as
`path_to_local` of the tracking key; timestamps are abstract ticks). -/
structure CacheEntry where
  size : Nat
  last_accessed : Nat
  deriving Repr, DecidableEq

/-- Embeds `FileCache::path_to_local`: `path.replace(':', "_")` relative to
the cache root. -/
def path_to_local (p : String) : String :=
  String.mk (p.data.map (fun c => if c = ':' then '_' else c))

/-- Embeds `FileCache`: the LRU bookkeeping table plus the on-disk files
under the cache root (keyed by local path, holding their bytes). -/
structure FileCache where
  max_size : Nat
  entries : List (String × CacheEntry)
  disk : List (String × List Nat)
  deriving Repr, DecidableEq

/-- Total tracked size: `entries.values().map(|e| e.size).sum()`. -/
def totalSize (l : List (String × CacheEntry)) : Nat :=
  (l.map (fun kv => kv.2.size)).sum

/-- Embeds `FileCache::has_cached`: if a file exists at the local path and
its length matches, report it; on a size mismatch delete the stale file. -/
def FileCache.has_cached (c : FileCache) (path : String) (expected_size : Nat) :
    Option String × FileCache :=
  let local_path := path_to_local path
  match alookup c.disk local_path with
  | some data =>
    if data.length = expected_size then (some local_path, c)
    else (none, { c with disk := aremove c.disk local_path })
  | none => (none, c)

/-- Embeds `FileCache::touch`: update `last_accessed` of the entry, if any. -/
def FileCache.touch (c : FileCache) (path : String) (now : Nat) : FileCache :=
  { c with entries :=
      c.entries.map (fun kv =>
        if kv.1 = path then (kv.1, { kv.2 with last_accessed := now }) else kv) }

/-- Insertion step of the sort in `evict_if_needed` (ascending by
`last_accessed`; `sort_by` is stable, so an element is inserted after the
entries whose time does not exceed its own). -/
def insertByAccess (e : String × CacheEntry) :
    List (String × CacheEntry) → List (String × CacheEntry)
  | [] => [e]
  | x :: xs =>
    if e.2.last_accessed < x.2.last_accessed then e :: x :: xs
    else x :: insertByAccess e xs

/-- Embeds the `sorted.sort_by(last_accessed)` of `evict_if_needed`. -/
def sortByAccess : List (String × CacheEntry) → List (String × CacheEntry)
  | [] => []
  | x :: xs => insertByAccess x (sortByAccess xs)

/-- Embeds the eviction loop of `evict_if_needed` over the time-sorted entry
list: walk the list accumulating `freed` until `freed >= target`, returning
the evicted prefix and the surviving entries (disk removal always succeeds
in the embedding). -/
def evictLoop (target : Nat) (freed : Nat) :
    List (String × CacheEntry) →
    List (String × CacheEntry) × List (String × CacheEntry)
  | [] => ([], [])
  | e :: rest =>
    if target ≤ freed then ([], e :: rest)
    else
      let p := evictLoop target (freed + e.2.size) rest
      (e :: p.1, p.2)

/-- Embeds `FileCache::evict_if_needed`: nothing happens while the tracked
total is within `max_size`; otherwise evict least-recently-used entries until
at least `total - max_size` bytes are freed, removing them from the disk and
the table. -/
def FileCache.evict_if_needed (c : FileCache) : FileCache :=
  let total := totalSize c.entries
  if total ≤ c.max_size then c
  else
    let sorted := sortByAccess c.entries
    let p := evictLoop (total - c.max_size) 0 sorted
    { c with entries := p.2
             disk := p.1.foldl (fun d kv => aremove d (path_to_local kv.1)) c.disk }

/-- Embeds `FileCache::get_or_fetch`, with the download closure's outcome
passed in as `fetch`: on a size-matched hit, touch the LRU time and return
the local path; on a miss, store the fetched bytes, record the entry with
the current tick, and run eviction. -/
def FileCache.get_or_fetch (c : FileCache) (path : String) (expected_size : Nat)
    (fetch : Except String (List Nat)) (now : Nat) :
    Except String String × FileCache :=
  match c.has_cached path expected_size with
  | (some local_path, c1) => (Except.ok local_path, c1.touch path now)
  | (none, c1) =>
    match fetch with
    | Except.error e => (Except.error e, c1)
    | Except.ok data =>
      let local_path := path_to_local path
      let c2 := { c1 with
        disk := ainsert c1.disk local_path data
        entries := ainsert c1.entries path
          { size := data.length, last_accessed := now } }
      (Except.ok local_path, c2.evict_if_needed)

/-- Embeds `FileCache::invalidate`: remove the file from disk and the entry
from the table. -/
def FileCache.invalidate (c : FileCache) (path : String) : FileCache :=
  { c with disk := aremove c.disk (path_to_local path)
           entries := aremove c.entries path }

/-! ## B2 types and attribute construction (`src/b2/types.rs`) -/

/-- Embeds `fuser::FileType` (the two variants used by the daemon). -/
inductive FileType
  | RegularFile
  | Directory
  deriving Repr, DecidableEq

/-- Embeds `FileInfo` from `src/b2/types.rs`. -/
structure FileInfo where
  file_name : String
  content_length : Nat
  upload_timestamp : Nat
  action : String
  file_id : Option String
  content_type : Option String
  deriving Repr, DecidableEq

/-- Embeds `FileInfo::is_directory`. -/
def FileInfo.is_directory (f : FileInfo) : Bool :=
  f.action = "folder" || strEndsWith f.file_name "/"

/-- Embeds `fuser::FileAttr`; times are milliseconds since the epoch. -/
structure FileAttr where
  ino : Nat
  size : Nat
  blocks : Nat
  atime : Nat
  mtime : Nat
  ctime : Nat
  crtime : Nat
  kind : FileType
  perm : Nat
  nlink : Nat
  uid : Nat
  gid : Nat
  rdev : Nat
  blksize : Nat
  flags : Nat
  deriving Repr, DecidableEq

/-- Ambient values the source reads from the OS: `SystemTime::now()` (as a
millisecond tick) and `getuid()` / `getgid()`. -/
structure Env where
  now : Nat
  uid : Nat
  gid : Nat
  deriving Repr, DecidableEq

/-- Embeds `b2_file_to_attr`. -/
def b2_file_to_attr (ino : Nat) (f : FileInfo) (env : Env) : FileAttr :=
  let is_dir := f.is_directory
  let kind := if is_dir then FileType.Directory else FileType.RegularFile
  let upload_time := f.upload_timestamp
  let perm := if is_dir then 0o755 else 0o644
  let size := f.content_length
  let blocks := (size + 511) / 512
  { ino := ino, size := size, blocks := blocks
    atime := upload_time, mtime := upload_time
    ctime := upload_time, crtime := upload_time
    kind := kind, perm := perm
    nlink := if is_dir then 2 else 1
    uid := env.uid, gid := env.gid
    rdev := 0, blksize := 4096, flags := 0 }

/-- Embeds `directory_attr`. -/
def directory_attr (ino : Nat) (env : Env) : FileAttr :=
  { ino := ino, size := 0, blocks := 0
    atime := env.now, mtime := env.now, ctime := env.now, crtime := env.now
    kind := FileType.Directory, perm := 0o755, nlink := 2
    uid := env.uid, gid := env.gid
    rdev := 0, blksize := 4096, flags := 0 }

/-- Embeds `stub_file_attr`. -/
def stub_file_attr (ino : Nat) (size : Nat) (env : Env) : FileAttr :=
  { ino := ino, size := size, blocks := (size + 511) / 512
    atime := env.now, mtime := env.now, ctime := env.now, crtime := env.now
    kind := FileType.RegularFile, perm := 0o644, nlink := 1
    uid := env.uid, gid := env.gid
    rdev := 0, blksize := 4096, flags := 0 }

/-! ## Metadata cache (`src/cache/metadata.rs`) -/

/-- Embeds `CachedAttr` (`cached_at` is an abstract tick; moka's TTL expiry
is not modeled, as no verified claim involves the passage of TTL time). -/
structure CachedAttr where
  attr : FileAttr
  cached_at : Nat
  deriving Repr, DecidableEq

/-- Embeds `CachedDir`. -/
structure CachedDir where
  entries : List (String × Nat × FileType)
  cached_at : Nat
  deriving Repr, DecidableEq

/-- Embeds `MetadataCache`: attribute and directory maps plus hit/miss
counters.  The `negative` field is modelled from the spec (see below). -/
structure MetadataCache where
  attr_cache : List (Nat × CachedAttr)
  dir_cache : List (Nat × CachedDir)
  negative : List String
  hits : Nat
  misses : Nat
  deriving Repr, DecidableEq

/-- The empty metadata cache (`MetadataCache::new`). -/
def MetadataCache.new : MetadataCache :=
  { attr_cache := [], dir_cache := [], negative := [], hits := 0, misses := 0 }

/-- Embeds `MetadataCache::get_attr`, including the hit/miss counter
updates. -/
def MetadataCache.get_attr (m : MetadataCache) (ino : Nat) :
    Option FileAttr × MetadataCache :=
  match alookup m.attr_cache ino with
  | some cached => (some cached.attr, { m with hits := m.hits + 1 })
  | none => (none, { m with misses := m.misses + 1 })

/-- Embeds `MetadataCache::insert_attr`. -/
def MetadataCache.insert_attr (m : MetadataCache) (ino : Nat) (attr : FileAttr)
    (now : Nat) : MetadataCache :=
  { m with attr_cache := ainsert m.attr_cache ino { attr := attr, cached_at := now } }

/-- Embeds `MetadataCache::insert_file_info`. -/
def MetadataCache.insert_file_info (m : MetadataCache) (ino : Nat) (f : FileInfo)
    (env : Env) : MetadataCache :=
  m.insert_attr ino (b2_file_to_attr ino f env) env.now

/-- Embeds `MetadataCache::invalidate`. -/
def MetadataCache.invalidate (m : MetadataCache) (ino : Nat) : MetadataCache :=
  { m with attr_cache := aremove m.attr_cache ino
           dir_cache := aremove m.dir_cache ino }

/-- Modelled from the spec: `insert_negative` of the negative-lookup cache.
The three negative-cache methods are invoked from `src/fs/b2fs.rs` but their
implementation is not among the provided sources; per the spec the negative
cache is a path-keyed set of known-absent names (`NegativeEntry { path }`),
TTL expiry not modeled. -/
def MetadataCache.insert_negative (m : MetadataCache) (path : String) : MetadataCache :=
  { m with negative := if m.negative.contains path then m.negative else path :: m.negative }

/-- Modelled from the spec: `is_negative_cached`, membership in the
negative-lookup cache. -/
def MetadataCache.is_negative_cached (m : MetadataCache) (path : String) : Bool :=
  m.negative.contains path

/-- Modelled from the spec: `remove_negative`, removal from the
negative-lookup cache (called by mutations that create `path`). -/
def MetadataCache.remove_negative (m : MetadataCache) (path : String) : MetadataCache :=
  { m with negative := m.negative.filter (fun p => p ≠ path) }

/-! ## Handle table (`src/fs/handles.rs`) -/

/-- Embeds `FileHandle`.  The open `File` descriptor is represented by
`local_path`: reads and writes through the handle act on the file-cache disk
map at that key. -/
structure FileHandle where
  ino : Nat
  path : String
  local_path : String
  is_dirty : Bool
  is_write : Bool
  deriving Repr, DecidableEq

/-- Embeds `HandleTable`. -/
structure HandleTable where
  handles : List (Nat × FileHandle)
  next_fh : Nat
  deriving Repr, DecidableEq

/-- Embeds `HandleTable::new` (ids start at 1; 0 is avoided). -/
def HandleTable.new : HandleTable :=
  { handles := [], next_fh := 1 }

/-- Embeds `HandleTable::open_read`: `File::open` fails when no file exists
at `local_path` on the given disk; otherwise allocate the next handle id. -/
def HandleTable.open_read (t : HandleTable) (ino : Nat) (path local_path : String)
    (disk : List (String × List Nat)) : Except String (Nat × HandleTable) :=
  match alookup disk local_path with
  | none => Except.error "No such file or directory"
  | some _ =>
    let fh := t.next_fh
    Except.ok (fh,
      { handles := ainsert t.handles fh
          { ino := ino, path := path, local_path := local_path
            is_dirty := false, is_write := false }
        next_fh := t.next_fh + 1 })

/-- Embeds `HandleTable::open_write` (opens read+write). -/
def HandleTable.open_write (t : HandleTable) (ino : Nat) (path local_path : String)
    (disk : List (String × List Nat)) : Except String (Nat × HandleTable) :=
  match alookup disk local_path with
  | none => Except.error "No such file or directory"
  | some _ =>
    let fh := t.next_fh
    Except.ok (fh,
      { handles := ainsert t.handles fh
          { ino := ino, path := path, local_path := local_path
            is_dirty := false, is_write := true }
        next_fh := t.next_fh + 1 })

/-- Embeds `HandleTable::close`: remove the handle and hand it back. -/
def HandleTable.close (t : HandleTable) (fh : Nat) : Option FileHandle × HandleTable :=
  (alookup t.handles fh, { t with handles := aremove t.handles fh })

/-! ## Filesystem adapter (`src/fs/b2fs.rs`)

Each upcall is embedded as a pure transformer of the adapter state.  The
remote store is an oracle giving the outcome of each REST call the upcall
may issue; the list of REST calls actually issued is part of the result, so
"no REST call is made" is expressible. -/

/-- POSIX errno values used in kernel replies (`libc` constants). -/
def ENOENT : Nat := 2

/-- The errno for an IO failure. -/
def EIO : Nat := 5

/-- The errno for a bad file handle. -/
def EBADF : Nat := 9

/-- The errno for a permission failure. -/
def EACCES : Nat := 13

/-- A REST call issued against the B2 client during an upcall. -/
inductive RestCall
  | getFileInfo (path : String)
  | listFileNames (pfx : Option String) (delimiter : Option String)
  | downloadFile (path : String)
  | uploadFile (path : String) (data : List Nat) (content_type : String)
  | deleteFile (path : String) (file_id : String)
  | hideFile (path : String)
  deriving Repr, DecidableEq

/-- Outcomes of the REST calls an upcall may make, as seen by the adapter. -/
structure B2Oracle where
  get_file_info : String → Except String FileInfo
  list_file_names : Option String → Option String → Except String (List FileInfo)

/-- Embeds `B2Filesystem`'s mutable state: inode table, handle table,
metadata cache and file cache. -/
structure FsState where
  inode_table : InodeTable
  handle_table : HandleTable
  metadata_cache : MetadataCache
  file_cache : FileCache
  deriving DecidableEq

/-- Embeds `is_suppressed_name`: the hard-coded macOS metadata filter. -/
def is_suppressed_name (name : String) : Bool :=
  (name = ".DS_Store" || name = ".localized" || name = ".hidden" ||
    name = ".Spotlight-V100" || name = ".Trashes" || name = ".fseventsd" ||
    name = ".TemporaryItems" || name = ".VolumeIcon.icns" || name = "Icon\r") ||
  strStartsWith name "._" ||
  strStartsWith name ".com.apple."

/-- Embeds `B2Filesystem::fetch_file_info_from_b2`: `Ok (some fi)` when
found, `Ok none` when the error display contains "File not found",
`Except.error ()` on any other API error. -/
def fetch_file_info_from_b2 (o : B2Oracle) (path : String) :
    Except Unit (Option FileInfo) × List RestCall :=
  match o.get_file_info path with
  | Except.ok fi => (Except.ok (some fi), [RestCall.getFileInfo path])
  | Except.error e =>
    if containsSubstr e "File not found" then (Except.ok none, [RestCall.getFileInfo path])
    else (Except.error (), [RestCall.getFileInfo path])

/-- Embeds `B2Filesystem::is_b2_directory`: probe `list_file_names` on the
slash-terminated path; any children mean a virtual directory; errors read
as "not a directory". -/
def is_b2_directory (o : B2Oracle) (path : String) : Bool × List RestCall :=
  let pfx := if strEndsWith path "/" then path else path ++ "/"
  match o.list_file_names (some pfx) (some "/") with
  | Except.ok files => (!files.isEmpty, [RestCall.listFileNames (some pfx) (some "/")])
  | Except.error _ => (false, [RestCall.listFileNames (some pfx) (some "/")])

/-- Embeds `B2Filesystem::get_attr_for_inode`: root stub, then attribute
cache, then REST fetch (cached on success), with a directory-attribute
fallback for unknown-but-mapped inodes. -/
def get_attr_for_inode (s : FsState) (ino : Nat) (o : B2Oracle) (env : Env) :
    Option FileAttr × FsState × List RestCall :=
  if ino = ROOT_INO then (some (directory_attr ino env), s, [])
  else
    match s.metadata_cache.get_attr ino with
    | (some attr, mc) => (some attr, { s with metadata_cache := mc }, [])
    | (none, mc) =>
      let s1 := { s with metadata_cache := mc }
      match s1.inode_table.get_path ino with
      | none => (none, s1, [])
      | some path =>
        match fetch_file_info_from_b2 o path with
        | (Except.ok (some fi), calls) =>
          (some (b2_file_to_attr ino fi env),
            { s1 with metadata_cache := s1.metadata_cache.insert_file_info ino fi env },
            calls)
        | (Except.ok none, calls) => (some (directory_attr ino env), s1, calls)
        | (Except.error _, calls) => (some (directory_attr ino env), s1, calls)

/-- Helper shared by the upcalls: `parent_path + "/" + name`, with no
separator under the root. -/
def child_path_of (parent_path name : String) : String :=
  if parent_path = "" then name else parent_path ++ "/" ++ name

/-- Embeds `B2Filesystem::lookup`.  Suppressed names insert a negative-cache
entry and reply ENOENT before anything else; then the negative cache is
consulted, the child inode allocated, and the attribute resolved through
cache, file probe, directory probe, or the navigation fallback. -/
def B2Filesystem.lookup (s : FsState) (parent : Nat) (name : String) (o : B2Oracle)
    (env : Env) : Except Nat FileAttr × FsState × List RestCall :=
  if is_suppressed_name name then
    let parent_path := (s.inode_table.get_path parent).getD ""
    let child_path := child_path_of parent_path name
    (Except.error ENOENT,
      { s with metadata_cache := s.metadata_cache.insert_negative child_path }, [])
  else
    match s.inode_table.get_path parent with
    | none => (Except.error ENOENT, s, [])
    | some parent_path =>
      let child_path := child_path_of parent_path name
      if s.metadata_cache.is_negative_cached child_path then
        (Except.error ENOENT, s, [])
      else
        let pr := s.inode_table.lookup_or_create child_path
        let ino := pr.1
        let s1 := { s with inode_table := pr.2 }
        match s1.metadata_cache.get_attr ino with
        | (some attr, mc) => (Except.ok attr, { s1 with metadata_cache := mc }, [])
        | (none, mc) =>
          let s2 := { s1 with metadata_cache := mc }
          match fetch_file_info_from_b2 o child_path with
          | (Except.ok (some fi), calls) =>
            (Except.ok (b2_file_to_attr ino fi env),
              { s2 with metadata_cache := s2.metadata_cache.insert_file_info ino fi env },
              calls)
          | (Except.ok none, calls) =>
            let dirp := is_b2_directory o child_path
            if dirp.1 then
              let attr := directory_attr ino env
              (Except.ok attr,
                { s2 with metadata_cache := s2.metadata_cache.insert_attr ino attr env.now },
                calls ++ dirp.2)
            else
              (Except.error ENOENT,
                { s2 with metadata_cache := s2.metadata_cache.insert_negative child_path },
                calls ++ dirp.2)
          | (Except.error _, calls) =>
            (Except.ok (directory_attr ino env), s2, calls)

/-- Embeds `B2Filesystem::create`; `tmp_name` is the random name the OS picks
for the `NamedTempFile` under the cache dir's `tmp/` subdirectory (its
creation is assumed to succeed). -/
def B2Filesystem.create (s : FsState) (parent : Nat) (name : String)
    (tmp_name : String) (env : Env) :
    Except Nat (FileAttr × Nat) × FsState × List RestCall :=
  if is_suppressed_name name then (Except.error EACCES, s, [])
  else
    match s.inode_table.get_path parent with
    | none => (Except.error ENOENT, s, [])
    | some parent_path =>
      let child_path := child_path_of parent_path name
      let local_path := "tmp/" ++ tmp_name
      let s1 := { s with file_cache :=
        { s.file_cache with disk := ainsert s.file_cache.disk local_path [] } }
      let pr := s1.inode_table.lookup_or_create child_path
      let ino := pr.1
      let s2 := { s1 with inode_table := pr.2 }
      let s3 := { s2 with metadata_cache := s2.metadata_cache.remove_negative child_path }
      match s3.handle_table.open_write ino child_path local_path s3.file_cache.disk with
      | Except.error _ => (Except.error EIO, s3, [])
      | Except.ok (fh, ht) =>
        let s4 := { s3 with handle_table := ht }
        let attr := stub_file_attr ino 0 env
        let s5 := { s4 with metadata_cache :=
          (s4.metadata_cache.insert_attr ino attr env.now).invalidate parent }
        (Except.ok (attr, fh), s5, [])

/-- Embeds `B2Filesystem::release`, with the outcome of the (at most one)
`upload_file` REST call passed as `upload`.  The handle is removed first; a
dirty handle's temp file is read back (`std::fs::read`) and uploaded; on
success caches are updated and invalidated; in every branch the reply is
`reply.ok()`. -/
def B2Filesystem.release (s : FsState) (fh : Nat) (upload : Except String FileInfo)
    (env : Env) : Except Nat Unit × FsState × List RestCall :=
  let cl := s.handle_table.close fh
  match cl.1 with
  | none => (Except.ok (), { s with handle_table := cl.2 }, [])
  | some h =>
    let s1 := { s with handle_table := cl.2 }
    if h.is_dirty then
      match alookup s1.file_cache.disk h.local_path with
      | none => (Except.ok (), s1, [])
      | some data =>
        match upload with
        | Except.ok fi =>
          let s2 := { s1 with metadata_cache :=
            s1.metadata_cache.insert_file_info h.ino fi env }
          let parent_ino := s2.inode_table.get_parent_ino h.ino
          let s3 := { s2 with metadata_cache := s2.metadata_cache.invalidate parent_ino }
          let s4 := { s3 with file_cache := s3.file_cache.invalidate h.path }
          (Except.ok (), s4,
            [RestCall.uploadFile h.path data "application/octet-stream"])
        | Except.error _ =>
          (Except.ok (), s1,
            [RestCall.uploadFile h.path data "application/octet-stream"])
    else (Except.ok (), s1, [])

/-- Embeds `B2Filesystem::setattr` (the truncate path): with `size = some 0`
and a supplied handle id, the handle's local file is truncated and the
handle marked dirty; then the current attributes are fetched and, when a
size was supplied, patched (`size`, `blocks`, `mtime = now`) and cached. -/
def B2Filesystem.setattr (s : FsState) (ino : Nat) (size : Option Nat)
    (fh : Option Nat) (o : B2Oracle) (env : Env) :
    Except Nat FileAttr × FsState × List RestCall :=
  let s1 :=
    if size = some 0 then
      match fh with
      | some fhv =>
        match alookup s.handle_table.handles fhv with
        | some h =>
          { s with
            file_cache :=
              { s.file_cache with disk := ainsert s.file_cache.disk h.local_path [] },
            handle_table :=
              { s.handle_table with
                handles := ainsert s.handle_table.handles fhv { h with is_dirty := true } } }
        | none => s
      | none => s
    else s
  match get_attr_for_inode s1 ino o env with
  | (some attr, s2, calls) =>
    match size with
    | some n =>
      let attr2 := { attr with size := n, blocks := (n + 511) / 512, mtime := env.now }
      (Except.ok attr2,
        { s2 with metadata_cache := s2.metadata_cache.insert_attr ino attr2 env.now },
        calls)
    | none => (Except.ok attr, s2, calls)
  | (none, s2, calls) => (Except.error ENOENT, s2, calls)

/-! ## Shared lemmas about the retry loop -/

theorem withRetryAux_not_retryable {α : Type} (f : Nat → Except String α)
    (attempt h fuel : Nat) (e : String) (hf : f attempt = Except.error e)
    (hnr : (classify e).is_retryable = false) :
    withRetryAux f attempt h (fuel + 1) =
      { result := Except.error e, attempts := attempt + 1, sleeps := []
        health :=
          if (classify e).is_network then HEALTH_UNHEALTHY
          else if (classify e).is_rate_limited then HEALTH_DEGRADED
          else h
        error_logged := true, auth_refreshed := false } := by
  simp only [withRetryAux]
  rw [hf]
  simp [hnr]

theorem withRetryAux_retryable_step {α : Type} (f : Nat → Except String α)
    (attempt h fuel : Nat) (e : String) (hf : f attempt = Except.error e)
    (hr : (classify e).is_retryable = true) (hne : attempt ≠ MAX_RETRIES) :
    withRetryAux f attempt h (fuel + 1) =
      { withRetryAux f (attempt + 1) h fuel with
        sleeps := ((backoff_ms.get? attempt).getD 2000) ::
          (withRetryAux f (attempt + 1) h fuel).sleeps
        auth_refreshed := ((classify e).is_auth_expired && attempt = 0) ||
          (withRetryAux f (attempt + 1) h fuel).auth_refreshed } := by
  simp only [withRetryAux]
  rw [hf]
  simp [hr, hne]

theorem withRetryAux_last_attempt {α : Type} (f : Nat → Except String α)
    (attempt h fuel : Nat) (e : String) (hatt : attempt = MAX_RETRIES)
    (hf : f attempt = Except.error e) :
    withRetryAux f attempt h (fuel + 1) =
      { result := Except.error e, attempts := attempt + 1, sleeps := []
        health :=
          if (classify e).is_network then HEALTH_UNHEALTHY
          else if (classify e).is_rate_limited then HEALTH_DEGRADED
          else h
        error_logged := true, auth_refreshed := false } := by
  simp only [withRetryAux]
  rw [hf]
  simp [hatt]

theorem withRetryAux_ok_health {α : Type} (f : Nat → Except String α)
    (fuel : Nat) :
    ∀ (attempt h : Nat) (v : α),
      (withRetryAux f attempt h fuel).result = Except.ok v →
      (withRetryAux f attempt h fuel).health = HEALTH_HEALTHY := by
  induction fuel with
  | zero =>
    intro attempt h v hres
    simp [withRetryAux] at hres
  | succ n ih =>
    intro attempt h v
    simp only [withRetryAux]
    cases hfa : f attempt with
    | ok w => intro _; rfl
    | error e =>
      dsimp only
      split
      · intro hres
        exact absurd hres (by simp)
      · intro hres
        exact ih (attempt + 1) h v hres

/-! ## Claim theorems: retry policy -/

/-- A run of `with_retry` in which every attempt reports HTTP 502 and
nothing else. -/
def err502 : String := "Failed to list files (502 Bad Gateway): upstream error"

/-- C3 counterexample: an error carrying HTTP status 502 is *not* classified
as a server error by `with_retry` (the classifier checks only 500, 503 and
408) and is not retried: the call is abandoned after a single attempt with
no backoff sleep, refuting the claim that a further attempt is made. -/
theorem retry_502_not_retried_cex :
    (classify err502).is_server_error = false ∧
    (classify err502).is_retryable = false ∧
    (with_retry (fun _ => (Except.error err502 : Except String Unit))
      HEALTH_HEALTHY).attempts = 1 ∧
    (with_retry (fun _ => (Except.error err502 : Except String Unit))
      HEALTH_HEALTHY).sleeps = [] := by
  decide

/-- C3 (amended): in `with_retry`, an error whose display string carries
HTTP status 502 and no other recognized marker is not retryable: the call
fails immediately after exactly one attempt, with no backoff sleep, and the
error is returned as-is. -/
theorem retry_502_fails_immediately {α : Type} (f : Nat → Except String α)
    (h : Nat) (e : String) (hf : f 0 = Except.error e)
    (h502 : containsSubstr e "502" = true)
    (hnr : (classify e).is_retryable = false) :
    (with_retry f h).attempts = 1 ∧ (with_retry f h).sleeps = [] ∧
    (with_retry f h).result = Except.error e := by
  have hstep := withRetryAux_not_retryable f 0 h (MAX_RETRIES) e hf hnr
  unfold with_retry
  rw [hstep]
  exact ⟨rfl, rfl, rfl⟩

/-- C3 witness: the amended theorem applied to a concrete 502 failure. -/
theorem retry_502_fails_immediately_witness :
    (with_retry (fun _ => (Except.error err502 : Except String Unit))
      HEALTH_DEGRADED).attempts = 1 ∧
    (with_retry (fun _ => (Except.error err502 : Except String Unit))
      HEALTH_DEGRADED).sleeps = [] ∧
    (with_retry (fun _ => (Except.error err502 : Except String Unit))
      HEALTH_DEGRADED).result = Except.error err502 :=
  retry_502_fails_immediately (fun _ => (Except.error err502 : Except String Unit))
    HEALTH_DEGRADED err502 rfl (by decide) (by decide)

/-- C4: when every attempt of a `with_retry` run fails with a retryable
error, exactly 4 attempts are made with sleeps of 500, 1000 and 2000 ms
between them; and any run whose result is a success ends with the health
byte reset to healthy. -/
theorem with_retry_backoff_schedule_and_health_reset
    (f g : Nat → Except String Unit) (h hg : Nat) (v : Unit)
    (hfail : ∀ i, i ≤ MAX_RETRIES →
      ∃ e, f i = Except.error e ∧ (classify e).is_retryable = true)
    (hok : (with_retry g hg).result = Except.ok v) :
    (with_retry f h).attempts = 4 ∧
    (with_retry f h).sleeps = [500, 1000, 2000] ∧
    (with_retry g hg).health = HEALTH_HEALTHY := by
  obtain ⟨e0, hf0, hr0⟩ := hfail 0 (by decide)
  obtain ⟨e1, hf1, hr1⟩ := hfail 1 (by decide)
  obtain ⟨e2, hf2, hr2⟩ := hfail 2 (by decide)
  obtain ⟨e3, hf3, hr3⟩ := hfail 3 (by decide)
  have s3 := withRetryAux_last_attempt f 3 h 0 e3 (by decide) hf3
  have s2 := withRetryAux_retryable_step f 2 h 1 e2 hf2 hr2 (by decide)
  have s1 := withRetryAux_retryable_step f 1 h 2 e1 hf1 hr1 (by decide)
  have s0 := withRetryAux_retryable_step f 0 h 3 e0 hf0 hr0 (by decide)
  refine ⟨?_, ?_, withRetryAux_ok_health g (MAX_RETRIES + 1) 0 hg v hok⟩
  · show (withRetryAux f 0 h (3 + 1)).attempts = 4
    rw [s0, s1, s2]
    show (withRetryAux f 3 h (0 + 1)).attempts = 4
    rw [s3]
  · show (withRetryAux f 0 h (3 + 1)).sleeps = [500, 1000, 2000]
    rw [s0, s1, s2]
    show 500 :: 1000 :: 2000 :: (withRetryAux f 3 h (0 + 1)).sleeps = [500, 1000, 2000]
    rw [s3]

/-- C4 witness: the schedule theorem applied to a run whose every attempt
times out, and a run whose first attempt succeeds. -/
theorem with_retry_backoff_schedule_witness :
    (with_retry (fun _ => (Except.error "timeout" : Except String Unit))
      HEALTH_UNHEALTHY).attempts = 4 ∧
    (with_retry (fun _ => (Except.error "timeout" : Except String Unit))
      HEALTH_UNHEALTHY).sleeps = [500, 1000, 2000] ∧
    (with_retry (fun _ => (Except.ok () : Except String Unit))
      HEALTH_UNHEALTHY).health = HEALTH_HEALTHY :=
  with_retry_backoff_schedule_and_health_reset
    (fun _ => (Except.error "timeout" : Except String Unit))
    (fun _ => (Except.ok () : Except String Unit))
    HEALTH_UNHEALTHY HEALTH_UNHEALTHY ()
    (fun _ _ => ⟨"timeout", rfl, by decide⟩) rfl

/-! ## Claim theorems: inode table -/

/-- The table after creating inodes for `a` (inode 2) and `b` (inode 3). -/
def c2_table_before : InodeTable :=
  ((InodeTable.new.lookup_or_create "a").2.lookup_or_create "b").2

/-- The table after renaming inode 2 onto the already-occupied path `b`. -/
def c2_table_after : InodeTable :=
  c2_table_before.rename 2 "b"

/-- C2: `InodeTable::rename` onto a path already mapped to a different inode
does *not* evict the prior inode's reverse mapping: starting from a table
with `a ↦ 2` and `b ↦ 3`, after `rename(2, "b")` inode 3 still resolves to
path `b` while path `b` resolves to inode 2, so
`get_ino (get_path 3) = some 2 ≠ some 3` and the bidirectional invariant is
broken, contradicting the spec's required tie-break. -/
theorem inode_rename_into_existing_breaks_invariant :
    c2_table_before.get_ino "a" = some 2 ∧
    c2_table_before.get_ino "b" = some 3 ∧
    c2_table_after.get_path 3 = some "b" ∧
    c2_table_after.get_ino "b" = some 2 ∧
    c2_table_after.get_path 2 = some "b" := by
  decide

/-! ## Shared lemmas about the file cache -/

theorem totalSize_append (a b : List (String × CacheEntry)) :
    totalSize (a ++ b) = totalSize a + totalSize b := by
  simp [totalSize]

theorem totalSize_insertByAccess (e : String × CacheEntry)
    (l : List (String × CacheEntry)) :
    totalSize (insertByAccess e l) = e.2.size + totalSize l := by
  induction l with
  | nil => simp [insertByAccess, totalSize]
  | cons x xs ih =>
    unfold insertByAccess
    by_cases hlt : e.2.last_accessed < x.2.last_accessed
    · simp [hlt, totalSize]
    · simp only [hlt, if_false, totalSize, List.map_cons, List.sum_cons] at ih ⊢
      omega

theorem totalSize_sortByAccess (l : List (String × CacheEntry)) :
    totalSize (sortByAccess l) = totalSize l := by
  induction l with
  | nil => rfl
  | cons x xs ih =>
    unfold sortByAccess
    rw [totalSize_insertByAccess, ih]
    simp [totalSize]

theorem evictLoop_append (target : Nat) (l : List (String × CacheEntry)) :
    ∀ freed, (evictLoop target freed l).1 ++ (evictLoop target freed l).2 = l := by
  induction l with
  | nil => intro freed; rfl
  | cons e rest ih =>
    intro freed
    unfold evictLoop
    by_cases hf : target ≤ freed
    · simp [hf]
    · simp only [hf, if_false, List.cons_append, List.cons.injEq, true_and]
      exact ih (freed + e.2.size)

theorem evictLoop_freed (target : Nat) (l : List (String × CacheEntry)) :
    ∀ freed, target ≤ freed + totalSize (evictLoop target freed l).1 ∨
      (evictLoop target freed l).2 = [] := by
  induction l with
  | nil => intro freed; exact Or.inr rfl
  | cons e rest ih =>
    intro freed
    unfold evictLoop
    by_cases hf : target ≤ freed
    · left
      simp [hf, totalSize]
    · rcases ih (freed + e.2.size) with h | h

      · left
        simp only [hf, if_false, totalSize, List.map_cons, List.sum_cons] at h ⊢
        omega
      · right
        simp only [hf, if_false]
        exact h

theorem evictLoop_take_drop (target freed : Nat) (l : List (String × CacheEntry)) :
    ∃ k, (evictLoop target freed l).1 = l.take k ∧
      (evictLoop target freed l).2 = l.drop k := by
  have happ := evictLoop_append target l freed
  refine ⟨(evictLoop target freed l).1.length, ?_, ?_⟩
  · calc (evictLoop target freed l).1
        = ((evictLoop target freed l).1 ++
            (evictLoop target freed l).2).take (evictLoop target freed l).1.length :=
          (List.take_left _ _).symm
      _ = l.take (evictLoop target freed l).1.length := by rw [happ]
  · calc (evictLoop target freed l).2
        = ((evictLoop target freed l).1 ++
            (evictLoop target freed l).2).drop (evictLoop target freed l).1.length :=
          (List.drop_left _ _).symm
      _ = l.drop (evictLoop target freed l).1.length := by rw [happ]

theorem evict_if_needed_entries_of_gt (c : FileCache)
    (hgt : c.max_size < totalSize c.entries) :
    c.evict_if_needed.entries =
      (evictLoop (totalSize c.entries - c.max_size) 0 (sortByAccess c.entries)).2 := by
  have hle : ¬ totalSize c.entries ≤ c.max_size := by omega
  unfold FileCache.evict_if_needed
  simp [hle]

theorem evict_if_needed_le (c : FileCache) :
    totalSize c.evict_if_needed.entries ≤ c.max_size := by
  by_cases hle : totalSize c.entries ≤ c.max_size
  · have hid : c.evict_if_needed = c := by
      unfold FileCache.evict_if_needed
      simp [hle]
    rw [hid]
    exact hle
  · have hgt : c.max_size < totalSize c.entries := by omega
    rw [evict_if_needed_entries_of_gt c hgt]
    rcases evictLoop_freed (totalSize c.entries - c.max_size) (sortByAccess c.entries) 0
      with h | h
    · have happ := evictLoop_append (totalSize c.entries - c.max_size)
        (sortByAccess c.entries) 0
      have hts : totalSize
            ((evictLoop (totalSize c.entries - c.max_size) 0 (sortByAccess c.entries)).1 ++
              (evictLoop (totalSize c.entries - c.max_size) 0 (sortByAccess c.entries)).2) =
          totalSize c.entries := by
        rw [happ, totalSize_sortByAccess]
      rw [totalSize_append] at hts
      omega
    · rw [h]
      simp [totalSize]

theorem evict_if_needed_drop (c : FileCache)
    (hgt : c.max_size < totalSize c.entries) :
    ∃ k, c.evict_if_needed.entries = (sortByAccess c.entries).drop k := by
  rw [evict_if_needed_entries_of_gt c hgt]
  obtain ⟨k, _, hdrop⟩ :=
    evictLoop_take_drop (totalSize c.entries - c.max_size) 0 (sortByAccess c.entries)
  exact ⟨k, hdrop⟩

theorem has_cached_entries (c : FileCache) (p : String) (e : Nat) :
    (c.has_cached p e).2.entries = c.entries ∧
    (c.has_cached p e).2.max_size = c.max_size := by
  unfold FileCache.has_cached
  cases h : alookup c.disk (path_to_local p) with
  | none => simp [h]
  | some data =>
    by_cases hlen : data.length = e
    · simp [h, hlen]
    · simp [h, hlen]

/-! ## Claim theorems: content cache eviction -/

/-- An empty file cache with the given size cap
(`FileCache::with_config` on a fresh directory). -/
def emptyFileCache (cap : Nat) : FileCache :=
  { max_size := cap, entries := [], disk := [] }

/-- One `get_or_fetch` of a 600-byte object at tick `t` (the fetcher
returns 600 zero bytes when invoked). -/
def lru_step (c : FileCache) (p : String) (t : Nat) : FileCache :=
  (c.get_or_fetch p 600 (Except.ok (List.replicate 600 0)) t).2

/-- The spec's eviction scenario: insert `a:600` at tick 1, `b:600` at
tick 2, access `a` at tick 3, insert `c:600` at tick 4. -/
def lru_scenario (cap : Nat) : FileCache :=
  lru_step (lru_step (lru_step (lru_step (emptyFileCache cap) "a" 1) "b" 2) "a" 3) "c" 4

set_option maxRecDepth 100000 in
/-- C5 counterexample: with cap 1000 the claimed outcome is wrong.  Eviction
triggers as soon as `b` is inserted (600 + 600 = 1200 > 1000), evicting `a`;
the later access of `a` is a miss that re-fetches `a` and evicts `b`; and
inserting `c` evicts `a` again.  At the end only `c` is tracked — `a` does
not remain, contrary to the claim. -/
theorem lru_scenario_cap1000_cex :
    alookup (lru_scenario 1000).entries "a" = none ∧
    alookup (lru_scenario 1000).entries "b" = none ∧
    alookup (lru_scenario 1000).entries "c" =
      some { size := 600, last_accessed := 4 } := by
  decide

set_option maxRecDepth 100000 in
/-- C5 (amended): with a maximum size large enough to hold two 600-byte
entries but not three (1500 bytes here), the scenario behaves as the claim
describes: inserting `a`, then `b`, then touching `a`, then inserting `c`
evicts exactly `b` (the least recently used entry); `a` and `c` remain
tracked. -/
theorem lru_scenario_cap1500_evicts_b :
    alookup (lru_scenario 1500).entries "a" =
      some { size := 600, last_accessed := 3 } ∧
    alookup (lru_scenario 1500).entries "b" = none ∧
    alookup (lru_scenario 1500).entries "c" =
      some { size := 600, last_accessed := 4 } := by
  decide

/-- Both eviction conclusions for a cache whose cap and entries are known. -/
theorem evict_combined (cc : FileCache) (M : Nat) (E : List (String × CacheEntry))
    (hM : cc.max_size = M) (hE : cc.entries = E) (hgt : M < totalSize E) :
    totalSize cc.evict_if_needed.entries ≤ M ∧
    ∃ k, cc.evict_if_needed.entries = (sortByAccess E).drop k := by
  subst hM
  subst hE
  exact ⟨evict_if_needed_le cc, evict_if_needed_drop cc hgt⟩

/-- C6: any `get_or_fetch` that misses and, after recording the fetched
entry, finds the tracked total above the maximum (i.e. triggers eviction)
ends with the tracked total at most the maximum, and the surviving entries
are exactly the time-sorted entry list with a least-recently-used prefix
removed (eviction removes entries in ascending last-access order until the
bound holds). -/
theorem get_or_fetch_eviction_bound_and_order
    (c : FileCache) (path : String) (expected_size : Nat) (data : List Nat) (now : Nat)
    (hmiss : (c.has_cached path expected_size).1 = none)
    (htrig : c.max_size <
      totalSize (ainsert c.entries path { size := data.length, last_accessed := now })) :
    totalSize ((c.get_or_fetch path expected_size (Except.ok data) now).2).entries
        ≤ c.max_size ∧
    ∃ k, ((c.get_or_fetch path expected_size (Except.ok data) now).2).entries =
      (sortByAccess
        (ainsert c.entries path { size := data.length, last_accessed := now })).drop k := by
  obtain ⟨hent, hmax⟩ := has_cached_entries c path expected_size
  have hpair : c.has_cached path expected_size =
      (none, (c.has_cached path expected_size).2) := by
    rw [← hmiss]
  have hgof : (c.get_or_fetch path expected_size (Except.ok data) now).2 =
      FileCache.evict_if_needed
        { (c.has_cached path expected_size).2 with
          disk := ainsert ((c.has_cached path expected_size).2).disk
            (path_to_local path) data
          entries := ainsert ((c.has_cached path expected_size).2).entries path
            { size := data.length, last_accessed := now } } := by
    unfold FileCache.get_or_fetch
    rw [hpair]
  rw [hgof]
  refine evict_combined _ c.max_size
    (ainsert c.entries path { size := data.length, last_accessed := now }) hmax ?_ htrig
  show ainsert ((c.has_cached path expected_size).2).entries path
      { size := data.length, last_accessed := now } =
    ainsert c.entries path { size := data.length, last_accessed := now }
  rw [hent]

/-- The concrete cache used to witness the eviction-bound theorem: cap 1000
with one 600-byte entry already tracked. -/
def c6_cache : FileCache :=
  { max_size := 1000
    entries := [("a", { size := 600, last_accessed := 1 })]
    disk := [("a", List.replicate 600 0)] }

set_option maxRecDepth 100000 in
/-- C6 witness: the eviction-bound theorem applied to a concrete miss that
pushes the tracked total to 1200 > 1000. -/
theorem get_or_fetch_eviction_bound_witness :
    totalSize ((c6_cache.get_or_fetch "b" 600
        (Except.ok (List.replicate 600 7)) 2).2).entries ≤ c6_cache.max_size ∧
    ∃ k, ((c6_cache.get_or_fetch "b" 600
        (Except.ok (List.replicate 600 7)) 2).2).entries =
      (sortByAccess (ainsert c6_cache.entries "b"
        { size := (List.replicate 600 7).length, last_accessed := 2 })).drop k :=
  get_or_fetch_eviction_bound_and_order c6_cache "b" 600 (List.replicate 600 7) 2
    (by decide) (by decide)

/-! ## Shared lemmas and fixtures for the adapter claims -/

/-- Equality is decidable for embedded REST results. -/
instance {α β : Type} [DecidableEq α] [DecidableEq β] : DecidableEq (Except α β) :=
  fun a b =>
    match a, b with
    | Except.ok x, Except.ok y =>
      if h : x = y then isTrue (by rw [h]) else isFalse (by intro hc; cases hc; exact h rfl)
    | Except.error x, Except.error y =>
      if h : x = y then isTrue (by rw [h]) else isFalse (by intro hc; cases hc; exact h rfl)
    | Except.ok _, Except.error _ => isFalse (by intro hc; cases hc)
    | Except.error _, Except.ok _ => isFalse (by intro hc; cases hc)

/-- Default content-cache cap (`DEFAULT_MAX_CACHE_SIZE`, 1 GiB). -/
def DEFAULT_MAX_CACHE_SIZE : Nat := 1024 * 1024 * 1024

/-- The adapter state right after `B2Filesystem::new`: fresh tables and
caches. -/
def initState : FsState :=
  { inode_table := InodeTable.new
    handle_table := HandleTable.new
    metadata_cache := MetadataCache.new
    file_cache := emptyFileCache DEFAULT_MAX_CACHE_SIZE }

/-- An oracle for a bucket with no objects: every file probe misses and
every listing is empty. -/
def trivialOracle : B2Oracle :=
  { get_file_info := fun p => Except.error ("File not found: " ++ p)
    list_file_names := fun _ _ => Except.ok [] }

/-- Ambient environment used by the concrete witnesses. -/
def base_env : Env := { now := 1000, uid := 501, gid := 20 }

theorem is_negative_cached_insert (m : MetadataCache) (p : String) :
    (m.insert_negative p).is_negative_cached p = true := by
  unfold MetadataCache.insert_negative MetadataCache.is_negative_cached
  by_cases hmem : p ∈ m.negative
  · simp [hmem]
  · simp [hmem]

theorem get_attr_for_inode_state (s : FsState) (ino : Nat) (o : B2Oracle) (env : Env) :
    ∃ mc, (get_attr_for_inode s ino o env).2.1 = { s with metadata_cache := mc } := by
  unfold get_attr_for_inode
  split
  · exact ⟨s.metadata_cache, rfl⟩
  · split
    · exact ⟨_, rfl⟩
    · dsimp only
      split
      · exact ⟨_, rfl⟩
      · split
        · exact ⟨_, rfl⟩
        · exact ⟨_, rfl⟩
        · exact ⟨_, rfl⟩

/-! ## Claim theorems: adapter upcalls -/

/-- C7: for every state, parent inode and suppressed name, `lookup` replies
ENOENT without issuing any REST call and records a negative-cache entry
under the would-be child path; a second identical `lookup` on the resulting
state (under any oracle) again replies ENOENT with no REST call. -/
theorem lookup_suppressed_no_rest_call (s : FsState) (parent : Nat) (name : String)
    (o o2 : B2Oracle) (env env2 : Env)
    (hsup : is_suppressed_name name = true) :
    (B2Filesystem.lookup s parent name o env).1 = Except.error ENOENT ∧
    (B2Filesystem.lookup s parent name o env).2.2 = [] ∧
    ((B2Filesystem.lookup s parent name o env).2.1).metadata_cache.is_negative_cached
      (child_path_of ((s.inode_table.get_path parent).getD "") name) = true ∧
    (B2Filesystem.lookup
      (B2Filesystem.lookup s parent name o env).2.1 parent name o2 env2).1 =
        Except.error ENOENT ∧
    (B2Filesystem.lookup
      (B2Filesystem.lookup s parent name o env).2.1 parent name o2 env2).2.2 = [] := by
  simp [B2Filesystem.lookup, hsup, is_negative_cached_insert]

/-- C7 witness: looking up `.DS_Store` under the root on a cold state. -/
theorem lookup_suppressed_no_rest_call_witness :
    (B2Filesystem.lookup initState 1 ".DS_Store" trivialOracle base_env).1 =
      Except.error ENOENT ∧
    (B2Filesystem.lookup initState 1 ".DS_Store" trivialOracle base_env).2.2 = [] ∧
    ((B2Filesystem.lookup initState 1 ".DS_Store" trivialOracle
        base_env).2.1).metadata_cache.is_negative_cached
      (child_path_of ((initState.inode_table.get_path 1).getD "") ".DS_Store") = true ∧
    (B2Filesystem.lookup
      (B2Filesystem.lookup initState 1 ".DS_Store" trivialOracle base_env).2.1
        1 ".DS_Store" trivialOracle base_env).1 = Except.error ENOENT ∧
    (B2Filesystem.lookup
      (B2Filesystem.lookup initState 1 ".DS_Store" trivialOracle base_env).2.1
        1 ".DS_Store" trivialOracle base_env).2.2 = [] :=
  lookup_suppressed_no_rest_call initState 1 ".DS_Store" trivialOracle trivialOracle
    base_env base_env (by decide)

/-- C8: `release` of a handle id absent from the handle table replies OK
(not an error), issues no REST call, and leaves the whole adapter state —
handle table, metadata cache, content cache, inode table — unchanged. -/
theorem release_unknown_handle_ok_unchanged (s : FsState) (fh : Nat)
    (upload : Except String FileInfo) (env : Env)
    (hunk : alookup s.handle_table.handles fh = none) :
    (B2Filesystem.release s fh upload env).1 = Except.ok () ∧
    (B2Filesystem.release s fh upload env).2.1 = s ∧
    (B2Filesystem.release s fh upload env).2.2 = [] := by
  unfold B2Filesystem.release HandleTable.close
  simp [hunk, aremove_of_not_mem _ _ hunk]

/-- C8 witness: releasing handle 42 on a fresh state. -/
theorem release_unknown_handle_witness :
    (B2Filesystem.release initState 42 (Except.error "unused") base_env).1 =
      Except.ok () ∧
    (B2Filesystem.release initState 42 (Except.error "unused") base_env).2.1 =
      initState ∧
    (B2Filesystem.release initState 42 (Except.error "unused") base_env).2.2 = [] :=
  release_unknown_handle_ok_unchanged initState 42 (Except.error "unused") base_env rfl

/-- C10: `create` with a suppressed name fails with EACCES before touching
anything: no REST call, and the state (inode table, handle table, caches,
temp files) is exactly the input state. -/
theorem create_suppressed_eacces_no_alloc (s : FsState) (parent : Nat)
    (name tmp_name : String) (env : Env)
    (hsup : is_suppressed_name name = true) :
    (B2Filesystem.create s parent name tmp_name env).1 = Except.error EACCES ∧
    (B2Filesystem.create s parent name tmp_name env).2.1 = s ∧
    (B2Filesystem.create s parent name tmp_name env).2.2 = [] := by
  simp [B2Filesystem.create, hsup]

/-- C10 witness: creating `._resourcefork` under the root of a fresh state. -/
theorem create_suppressed_witness :
    (B2Filesystem.create initState 1 "._resourcefork" "t1" base_env).1 =
      Except.error EACCES ∧
    (B2Filesystem.create initState 1 "._resourcefork" "t1" base_env).2.1 =
      initState ∧
    (B2Filesystem.create initState 1 "._resourcefork" "t1" base_env).2.2 = [] :=
  create_suppressed_eacces_no_alloc initState 1 "._resourcefork" "t1" base_env
    (by decide)

/-- The attribute mutation of `setattr` when a size is supplied:
`attr.size = new_size; attr.blocks = (new_size + 511) / 512;
attr.mtime = SystemTime::now()`. -/
def patch_attr (attr : FileAttr) (n now : Nat) : FileAttr :=
  { attr with size := n, blocks := (n + 511) / 512, mtime := now }

/-- C9: `setattr` with a positive requested size never touches any open
handle or any local file (the truncate path requires size 0 and a handle
id); whenever it replies with attributes, those attributes — and the entry
it caches for the inode — carry the requested size, `(n + 511) / 512`
blocks (the ceiling of n/512), and `mtime = now`. -/
theorem setattr_positive_size_frame (s : FsState) (ino n : Nat) (fh : Option Nat)
    (o : B2Oracle) (env : Env) (hn : 0 < n) :
    (B2Filesystem.setattr s ino (some n) fh o env).2.1.handle_table =
      s.handle_table ∧
    (∀ fh2 h2, alookup s.handle_table.handles fh2 = some h2 →
      alookup ((B2Filesystem.setattr s ino (some n) fh o env).2.1).file_cache.disk
          h2.local_path =
        alookup s.file_cache.disk h2.local_path) ∧
    (∀ attr, (B2Filesystem.setattr s ino (some n) fh o env).1 = Except.ok attr →
      attr.size = n ∧ attr.blocks = (n + 511) / 512 ∧ attr.mtime = env.now ∧
      alookup ((B2Filesystem.setattr s ino (some n) fh
          o env).2.1).metadata_cache.attr_cache ino =
        some { attr := attr, cached_at := env.now }) := by
  obtain ⟨m, rfl⟩ : ∃ m, n = m + 1 := ⟨n - 1, by omega⟩
  obtain ⟨mc, hmc⟩ := get_attr_for_inode_state s ino o env
  rcases hga : get_attr_for_inode s ino o env with ⟨ores, s2, calls⟩
  rw [hga] at hmc
  dsimp only at hmc
  have hne : ¬ ((some (m + 1) : Option Nat) = some 0) := by simp
  cases ores with
  | none =>
    have hout : B2Filesystem.setattr s ino (some (m + 1)) fh o env =
        (Except.error ENOENT, s2, calls) := by
      unfold B2Filesystem.setattr
      dsimp only
      rw [if_neg hne, hga]
    rw [hout]
    refine ⟨by rw [hmc], ?_, ?_⟩
    · intro fh2 h2 _
      rw [hmc]
    · intro attr hattr
      exact absurd hattr (by simp)
  | some attr0 =>
    have hout : B2Filesystem.setattr s ino (some (m + 1)) fh o env =
        (Except.ok (patch_attr attr0 (m + 1) env.now),
          { s2 with metadata_cache :=
              (s2.metadata_cache.insert_attr ino (patch_attr attr0 (m + 1) env.now)
                env.now) },
          calls) := by
      unfold B2Filesystem.setattr
      dsimp only
      rw [if_neg hne, hga]
      rfl
    rw [hout]
    refine ⟨by rw [hmc], ?_, ?_⟩
    · intro fh2 h2 _
      rw [hmc]
    · intro attr hattr
      have hinj : patch_attr attr0 (m + 1) env.now = attr := by
        simpa using hattr
      subst hinj
      exact ⟨rfl, rfl, rfl, alookup_ainsert _ _ _⟩

/-- C9 witness: `setattr(root, size = 5)` on a fresh state returns a 5-byte
attribute with one block and caches it. -/
theorem setattr_positive_size_witness :
    (B2Filesystem.setattr initState 1 (some 5) none trivialOracle
        base_env).2.1.handle_table = initState.handle_table ∧
    (∀ fh2 h2, alookup initState.handle_table.handles fh2 = some h2 →
      alookup ((B2Filesystem.setattr initState 1 (some 5) none trivialOracle
            base_env).2.1).file_cache.disk h2.local_path =
        alookup initState.file_cache.disk h2.local_path) ∧
    (∀ attr, (B2Filesystem.setattr initState 1 (some 5) none trivialOracle
        base_env).1 = Except.ok attr →
      attr.size = 5 ∧ attr.blocks = (5 + 511) / 512 ∧ attr.mtime = base_env.now ∧
      alookup ((B2Filesystem.setattr initState 1 (some 5) none trivialOracle
          base_env).2.1).metadata_cache.attr_cache 1 =
        some { attr := attr, cached_at := base_env.now }) :=
  setattr_positive_size_frame initState 1 5 none trivialOracle base_env (by decide)

/-- The write handle used in the upload-failure scenarios: dirty, backed by
the temp file `tmp/t0`. -/
def c1_handle : FileHandle :=
  { ino := 2, path := "doc.txt", local_path := "tmp/t0"
    is_dirty := true, is_write := true }

/-- A state with one open dirty write handle (id 1) whose temp file holds
the bytes `[1, 2, 3]`. -/
def c1_state : FsState :=
  { inode_table := (InodeTable.new.lookup_or_create "doc.txt").2
    handle_table := { handles := [(1, c1_handle)], next_fh := 2 }
    metadata_cache := MetadataCache.new
    file_cache := { max_size := DEFAULT_MAX_CACHE_SIZE, entries := []
                    disk := [("tmp/t0", [1, 2, 3])] } }

/-- C1 counterexample: releasing the dirty handle while the upload fails
replies OK — not EIO as claimed — although the temp file is preserved.  The
`reply.ok()` at the end of the `Some(handle)` branch runs regardless of the
upload outcome. -/
theorem release_upload_failure_replies_ok_cex :
    (B2Filesystem.release c1_state 1
      (Except.error "Failed to upload file (500 Internal Server Error): boom")
      base_env).1 = Except.ok () ∧
    (B2Filesystem.release c1_state 1
      (Except.error "Failed to upload file (500 Internal Server Error): boom")
      base_env).1 ≠ Except.error EIO ∧
    alookup ((B2Filesystem.release c1_state 1
      (Except.error "Failed to upload file (500 Internal Server Error): boom")
      base_env).2.1).file_cache.disk "tmp/t0" = some [1, 2, 3] := by
  decide

/-- C1 (amended): for every release of a dirty write handle whose upload
fails, the local temp file (and the whole content cache) is preserved and
the metadata cache is untouched, the failed upload is the only REST call
made, but the reply to the kernel is OK, not EIO — the error is only logged.
-/
theorem release_upload_failure_keeps_temp_file (s : FsState) (fh : Nat)
    (h : FileHandle) (e : String) (env : Env) (data : List Nat)
    (hh : alookup s.handle_table.handles fh = some h)
    (hd : h.is_dirty = true)
    (hread : alookup s.file_cache.disk h.local_path = some data) :
    (B2Filesystem.release s fh (Except.error e) env).1 = Except.ok () ∧
    (B2Filesystem.release s fh (Except.error e) env).2.1.file_cache =
      s.file_cache ∧
    alookup ((B2Filesystem.release s fh
        (Except.error e) env).2.1).file_cache.disk h.local_path = some data ∧
    (B2Filesystem.release s fh (Except.error e) env).2.1.metadata_cache =
      s.metadata_cache ∧
    (B2Filesystem.release s fh (Except.error e) env).2.2 =
      [RestCall.uploadFile h.path data "application/octet-stream"] := by
  unfold B2Filesystem.release HandleTable.close
  simp [hh, hd, hread]

/-- C1 witness: the amended theorem applied to the concrete dirty-handle
state. -/
theorem release_upload_failure_keeps_temp_file_witness :
    (B2Filesystem.release c1_state 1 (Except.error "boom") base_env).1 =
      Except.ok () ∧
    (B2Filesystem.release c1_state 1
      (Except.error "boom") base_env).2.1.file_cache = c1_state.file_cache ∧
    alookup ((B2Filesystem.release c1_state 1
        (Except.error "boom") base_env).2.1).file_cache.disk
      c1_handle.local_path = some [1, 2, 3] ∧
    (B2Filesystem.release c1_state 1
      (Except.error "boom") base_env).2.1.metadata_cache =
      c1_state.metadata_cache ∧
    (B2Filesystem.release c1_state 1 (Except.error "boom") base_env).2.2 =
      [RestCall.uploadFile c1_handle.path [1, 2, 3] "application/octet-stream"] :=
  release_upload_failure_keeps_temp_file c1_state 1 c1_handle "boom" base_env
    [1, 2, 3] (by decide) rfl (by decide)

end CloudMount
